import Mathlib

/-!
Verification of the maritime intelligence streaming pipeline.

This file gives a shallow embedding, in Lean 4, of the core of the
repository (backend/src): the AIS ingestion path (`ais_client.py`), the
batch upsert of the repository layer (`db/repository.py`), the anomaly
engine (`core/anomalies.py`) and the WebSocket broadcast hub
(`api/broadcaster.py`).  Python floats are idealised as real numbers;
`round(x, 6)` is modelled by `round6` below (Mathlib `round`, which agrees
with Python rounding except at exact decimal ties); asynchronous effects
are modelled by explicit state passing and by event traces.  External
collaborators (the AIS feed, the PostGIS store, the WebSocket transport)
enter as explicit parameters.
-/

namespace Maritime

/-- A normalized vessel report, the dictionary built at
`ais_client.py` lines 123-133.  Fields `mmsi`, `lat`, `lon` are optional
because `dict.get` returns `None` when the wire message lacks them. -/
structure VesselData where
  mmsi : Option Int
  name : String
  lat : Option ℝ
  lon : Option ℝ
  speed : ℝ
  course : ℝ
  vessel_type : String

/-- The optional position-report payload of a raw AIS message
(`Message.PositionReport` or `Message.StandardClassBPositionReport`);
`Sog` and `Cog` keys may be absent. -/
structure PosPayload where
  Sog : Option ℝ
  Cog : Option ℝ

/-- The `MetaData` object of a raw AIS message; every key may be absent. -/
structure RawMeta where
  MMSI : Option Int
  ShipName : Option String
  latitude : Option ℝ
  longitude : Option ℝ

/-- A raw message from the AIS feed, as consumed by the producer loop of
`start_ais_ingestion` (`ais_client.py` lines 118-133). -/
structure RawMsg where
  meta : RawMeta
  positionReport : Option PosPayload
  classBReport : Option PosPayload
  messageType : Option String

/-- Normalization of a raw message into a `VesselData` dictionary,
`ais_client.py` lines 123-133: MMSI and coordinates come from the
metadata, ship name defaults to "Unknown" and is stripped, speed and
course come from whichever position payload is present (defaulting to 0),
and the vessel type is the message type (defaulting to "Unknown"). -/
def normalize_message (m : RawMsg) : VesselData :=
  let payload := m.positionReport.orElse fun _ => m.classBReport
  { mmsi := m.meta.MMSI
    name := (m.meta.ShipName.getD "Unknown").trim
    lat := m.meta.latitude
    lon := m.meta.longitude
    speed := (payload.bind PosPayload.Sog).getD 0
    course := (payload.bind PosPayload.Cog).getD 0
    vessel_type := m.messageType.getD "Unknown" }

/-- Python truthiness of the optional MMSI value: `None` and `0` are
falsy, every other integer is truthy. -/
def truthyMmsi : Option Int → Bool
  | none => false
  | some m => m != 0

/-- The admission test of `ais_client.py` line 135:
`if vessel_data["mmsi"] and vessel_data["lat"] is not None`.
Note that the longitude is not inspected. -/
def ingest_filter (v : VesselData) : Bool :=
  truthyMmsi v.mmsi && v.lat.isSome

/-- Capacity of the ingestion queue, `asyncio.Queue(maxsize=5000)`
(`ais_client.py` line 28). -/
def QUEUE_MAXSIZE : Nat := 5000

/-- `queue.put_nowait` wrapped in the `except asyncio.QueueFull` handler of
`ais_client.py` lines 136-139: on a full queue the entry is dropped and a
data-loss warning is logged (second component `true`); otherwise the entry
is appended.  The producer never blocks and no exception escapes. -/
def put_nowait (q : List VesselData) (v : VesselData) : List VesselData × Bool :=
  if QUEUE_MAXSIZE ≤ q.length then (q, true) else (q ++ [v], false)

/-- One iteration of the producer for one raw feed message
(`ais_client.py` lines 118-139): normalize, test the admission filter,
and enqueue with drop-on-full. -/
def producerStep (q : List VesselData) (m : RawMsg) : List VesselData :=
  let v := normalize_message m
  if ingest_filter v then (put_nowait q v).1 else q

/-- The queue contents after feeding a list of raw messages to the
producer, starting from an empty queue. -/
def ingestQueue (msgs : List RawMsg) : List VesselData :=
  msgs.foldl producerStep []

lemma producerStep_preserves_filter {q : List VesselData} {m : RawMsg}
    (h : ∀ v ∈ q, ingest_filter v = true) :
    ∀ v ∈ producerStep q m, ingest_filter v = true := by
  intro v hv
  unfold producerStep at hv
  by_cases hf : ingest_filter (normalize_message m) = true
  · rw [if_pos hf] at hv
    unfold put_nowait at hv
    by_cases hq : QUEUE_MAXSIZE ≤ q.length
    · rw [if_pos hq] at hv
      exact h v hv
    · rw [if_neg hq] at hv
      simp only [List.mem_append, List.mem_singleton] at hv
      rcases hv with hv | hv
      · exact h v hv
      · rw [hv]; exact hf
  · rw [if_neg hf] at hv
    exact h v hv

lemma ingestQueue_filter_aux (msgs : List RawMsg) :
    ∀ q : List VesselData, (∀ v ∈ q, ingest_filter v = true) →
      ∀ v ∈ msgs.foldl producerStep q, ingest_filter v = true := by
  induction msgs with
  | nil => intro q h v hv; exact h v hv
  | cons m rest ih =>
      intro q h v hv
      exact ih (producerStep q m) (producerStep_preserves_filter h) v hv

/-- A raw message whose metadata carries an MMSI and a latitude but no
longitude. -/
def lonlessMsg : RawMsg :=
  { meta := { MMSI := some 123, ShipName := some "X",
              latitude := some 50, longitude := none }
    positionReport := none
    classBReport := none
    messageType := some "PositionReport" }

/-- C1 counterexample: the claim says a report lacking the longitude is
discarded before entering the buffer, but the admission test of
`ais_client.py` line 135 never inspects the longitude: the normalized
report of `lonlessMsg` has no longitude yet is enqueued. -/
theorem c1_counterexample :
    (normalize_message lonlessMsg).lon = none ∧
      producerStep [] lonlessMsg ≠ [] := by
  constructor
  · rfl
  · simp [producerStep, normalize_message, lonlessMsg, ingest_filter,
      truthyMmsi, put_nowait, QUEUE_MAXSIZE]

/-- C1 (amended): a normalized report enters the ingestion buffer only if
it has a truthy vessel identifier and a latitude; a report failing that
test is discarded by the producer, so every report ever present in the
buffer — hence every report later flushed, broadcast or persisted —
carries an identifier and a latitude.  (The longitude is not checked.) -/
theorem c1_buffer_admission :
    (∀ (m : RawMsg) (q : List VesselData),
        ingest_filter (normalize_message m) = false → producerStep q m = q) ∧
    (∀ msgs : List RawMsg, ∀ v ∈ ingestQueue msgs, ingest_filter v = true) := by
  constructor
  · intro m q h
    unfold producerStep
    rw [if_neg (by simp [h])]
  · intro msgs v hv
    exact ingestQueue_filter_aux msgs [] (by intro v hv; cases hv) v hv

/-- A raw message with no MMSI at all. -/
def noMmsiMsg : RawMsg :=
  { meta := { MMSI := none, ShipName := none,
              latitude := some 50, longitude := some 3 }
    positionReport := none
    classBReport := none
    messageType := none }

/-- A fully populated raw message. -/
def goodMsg : RawMsg :=
  { meta := { MMSI := some 9, ShipName := some "A",
              latitude := some 60, longitude := some 5 }
    positionReport := some { Sog := some 12, Cog := some 90 }
    classBReport := none
    messageType := some "PositionReport" }

/-- Witness for C1 (amended), at concrete inputs: a message without MMSI
is rejected and leaves the queue unchanged, and the sole occupant of the
queue after one accepted message passes the admission filter. -/
theorem c1_witness :
    (ingest_filter (normalize_message noMmsiMsg) = false ∧
      producerStep [] noMmsiMsg = []) ∧
    (normalize_message goodMsg ∈ ingestQueue [goodMsg] ∧
      ingest_filter (normalize_message goodMsg) = true) := by
  refine ⟨⟨rfl, c1_buffer_admission.1 noMmsiMsg [] rfl⟩, ?_, ?_⟩
  · show normalize_message goodMsg ∈ producerStep [] goodMsg
    simp [producerStep, normalize_message, goodMsg, ingest_filter,
      truthyMmsi, put_nowait, QUEUE_MAXSIZE]
  · exact c1_buffer_admission.2 [goodMsg] (normalize_message goodMsg)
      (by simp [ingestQueue, producerStep, normalize_message, goodMsg,
            ingest_filter, truthyMmsi, put_nowait, QUEUE_MAXSIZE])

/-- A placeholder normalized report used to build a full queue. -/
def dummyReport : VesselData :=
  { mmsi := some 1, name := "V", lat := some 0, lon := some 0,
    speed := 0, course := 0, vessel_type := "T" }

/-- C8: pushing a report onto a queue already holding its capacity of
5000 entries drops the entry, records the data-loss warning, and leaves
the queue contents unchanged (`ais_client.py` lines 136-139; the
`QueueFull` exception is caught, so the producer neither blocks nor
raises). -/
theorem c8_overflow_drops (q : List VesselData) (v : VesselData)
    (h : q.length = QUEUE_MAXSIZE) :
    put_nowait q v = (q, true) := by
  unfold put_nowait
  rw [if_pos (le_of_eq h.symm)]

/-- Witness for C8 at a concrete full queue of 5000 entries. -/
theorem c8_witness :
    (List.replicate 5000 dummyReport).length = QUEUE_MAXSIZE ∧
      put_nowait (List.replicate 5000 dummyReport) dummyReport =
        (List.replicate 5000 dummyReport, true) := by
  refine ⟨by rw [List.length_replicate]; rfl, ?_⟩
  exact c8_overflow_drops _ _ (by rw [List.length_replicate]; rfl)

/-- Degrees to radians, `math.radians` as used in `anomalies.py`
lines 54-55. -/
noncomputable def radians (deg : ℝ) : ℝ := deg * Real.pi / 180

/-- Rounding to 6 decimal places, modelling `round(x, 6)`
(`anomalies.py` lines 58-59).  Mathlib `round` rounds half up while
Python rounds half to even; the two agree away from exact decimal ties,
and no claim here depends on tie behaviour. -/
noncomputable def round6 (x : ℝ) : ℝ := (round (x * 1000000) : ℤ) / 1000000

/-- Dead-reckoning prediction, `AnomalyDetector.calculate_predicted_pos`
(`anomalies.py` lines 27-60).  Time stamps are seconds; `now` replaces
`datetime.now(timezone.utc)`.  Below 0.5 knots the input position is
returned as is; otherwise the rhumb-line displacement is added and the
result is rounded to 6 decimal places. -/
noncomputable def calculate_predicted_pos
    (lat lon speed course last_seen now : ℝ) : ℝ × ℝ :=
  if speed < 0.5 then (lat, lon)
  else
    let hours_passed := (now - last_seen) / 3600
    let dist_nm := speed * hours_passed
    let d_lat := dist_nm * Real.cos (radians course) / 60
    let d_lon := dist_nm * Real.sin (radians course) / (60 * Real.cos (radians lat))
    (round6 (lat + d_lat), round6 (lon + d_lon))

lemma round6_eq (x : ℝ) (n : ℤ) (h1 : (n : ℝ) ≤ x * 1000000 + 1 / 2)
    (h2 : x * 1000000 + 1 / 2 < (n : ℝ) + 1) :
    round6 x = (n : ℝ) / 1000000 := by
  unfold round6
  have h : round (x * 1000000) = n := by
    rw [round_eq]
    exact Int.floor_eq_iff.mpr ⟨h1, h2⟩
  rw [h]

/-- C4: for speed below 0.5 knots the predictor returns the input
position unchanged, whatever the course and time stamps
(`anomalies.py` lines 45-46). -/
theorem c4_below_threshold (lat lon speed course last_seen now : ℝ)
    (h : speed < 0.5) :
    calculate_predicted_pos lat lon speed course last_seen now = (lat, lon) := by
  unfold calculate_predicted_pos
  rw [if_pos h]

/-- Witness for C4 at a concrete slow vessel. -/
theorem c4_witness :
    (0.3 : ℝ) < 0.5 ∧
      calculate_predicted_pos 1 2 0.3 90 0 7200 = (1, 2) :=
  ⟨by norm_num, c4_below_threshold 1 2 0.3 90 0 7200 (by norm_num)⟩

/-- C5: for speed at least 0.5 knots the predictor returns the rhumb-line
dead-reckoning estimate, rounded to 6 decimal places: latitude gains
`speed * elapsed_hours * cos(course)/60` and longitude gains
`speed * elapsed_hours * sin(course)/(60 * cos(lat))`, with
`elapsed_hours = (now - last_seen)/3600` (`anomalies.py` lines 48-60). -/
theorem c5_formula (lat lon speed course last_seen now : ℝ)
    (h : 0.5 ≤ speed) :
    calculate_predicted_pos lat lon speed course last_seen now =
      (round6 (lat + speed * ((now - last_seen) / 3600) *
          Real.cos (course * Real.pi / 180) / 60),
       round6 (lon + speed * ((now - last_seen) / 3600) *
          Real.sin (course * Real.pi / 180) / (60 * Real.cos (lat * Real.pi / 180)))) := by
  unfold calculate_predicted_pos radians
  rw [if_neg (not_lt.mpr h)]

/-- Witness for C5: at 20 knots, course 0 and one elapsed hour from
latitude 60, the predicted latitude is 60.333333 (one third of a degree
north, rounded) and the longitude is unchanged. -/
theorem c5_witness :
    (0.5 : ℝ) ≤ 20 ∧
      calculate_predicted_pos 60 10 20 0 0 3600 = (60.333333, 10) := by
  refine ⟨by norm_num, ?_⟩
  rw [c5_formula 60 10 20 0 0 3600 (by norm_num)]
  have e0 : (0 : ℝ) * Real.pi / 180 = 0 := by ring
  rw [e0, Real.cos_zero, Real.sin_zero]
  have e1 : (60 : ℝ) + 20 * ((3600 - 0) / 3600) * 1 / 60 = 181 / 3 := by norm_num
  have e2 : (10 : ℝ) + 20 * ((3600 - 0) / 3600) * 0 /
      (60 * Real.cos (60 * Real.pi / 180)) = 10 := by
    rw [mul_zero, zero_div, add_zero]
  rw [e1, e2,
    round6_eq ((181 : ℝ) / 3) 60333333 (by norm_num) (by norm_num),
    round6_eq (10 : ℝ) 10000000 (by norm_num) (by norm_num)]
  norm_num

/-- C6 counterexample: the claim extends the 6-decimal rounding to the
slow branch, but for speed below 0.5 the input is returned without
rounding (`anomalies.py` line 46): at latitude 0.1234567 the returned
latitude has seven decimals, so it is no integer multiple of 10^-6. -/
theorem c6_counterexample :
    calculate_predicted_pos 0.1234567 0 0 0 0 0 = (0.1234567, 0) ∧
      ¬ ∃ m : ℤ, (0.1234567 : ℝ) = (m : ℝ) / 1000000 := by
  constructor
  · unfold calculate_predicted_pos
    rw [if_pos (by norm_num)]
  · rintro ⟨m, hm⟩
    have h1 : (0.1234567 : ℝ) * 10000000 = 1234567 := by norm_num
    have h2 : ((m : ℝ) / 1000000) * 10000000 = ((10 * m : ℤ) : ℝ) := by
      push_cast
      ring
    have h3 : ((1234567 : ℤ) : ℝ) = ((10 * m : ℤ) : ℝ) := by
      rw [← h2, ← hm, h1]
      norm_num
    have h4 : (1234567 : ℤ) = 10 * m := by exact_mod_cast h3
    omega

/-- C6 (amended): for speed at least 0.5 knots both returned coordinates
are integer multiples of 10^-6 (rounded to 6 decimal places); for speed
below 0.5 the input position is returned unchanged, without rounding. -/
theorem c6_amended :
    (∀ lat lon speed course last_seen now : ℝ, 0.5 ≤ speed →
        ∃ m n : ℤ, calculate_predicted_pos lat lon speed course last_seen now =
          ((m : ℝ) / 1000000, (n : ℝ) / 1000000)) ∧
    (∀ lat lon speed course last_seen now : ℝ, speed < 0.5 →
        calculate_predicted_pos lat lon speed course last_seen now = (lat, lon)) := by
  constructor
  · intro lat lon speed course last_seen now h
    unfold calculate_predicted_pos
    rw [if_neg (not_lt.mpr h)]
    simp only [round6]
    exact ⟨_, _, rfl⟩
  · intro lat lon speed course last_seen now h
    unfold calculate_predicted_pos
    rw [if_pos h]

/-- Witness for C6 (amended) at concrete fast and slow inputs. -/
theorem c6_witness :
    ((0.5 : ℝ) ≤ 20 ∧
      ∃ m n : ℤ, calculate_predicted_pos 60 10 20 0 0 3600 =
        ((m : ℝ) / 1000000, (n : ℝ) / 1000000)) ∧
    ((0 : ℝ) < 0.5 ∧ calculate_predicted_pos 1 2 0 0 0 0 = (1, 2)) :=
  ⟨⟨by norm_num, c6_amended.1 60 10 20 0 0 3600 (by norm_num)⟩,
   ⟨by norm_num, c6_amended.2 1 2 0 0 0 0 (by norm_num)⟩⟩

/-- A normalized report as consumed by `update_vessels_batch`
(`repository.py` lines 64-67): the tuple built there always reads the
keys `mmsi, name, lon, lat, speed, course, vessel_type`. -/
structure VesselIn where
  mmsi : Int
  name : String
  lat : ℝ
  lon : ℝ
  speed : ℝ
  course : ℝ
  vessel_type : String

/-- A stored row of the `vessels` table. -/
structure VesselRow where
  name : String
  lat : ℝ
  lon : ℝ
  speed : ℝ
  course : ℝ
  vtype : String
  last_seen : ℝ

/-- The `DO UPDATE SET` clause of `repository.py` lines 72-76 applied to
a stored row: only `last_pos`, `speed`, `course` and `last_seen` are
assigned; `name` and `type` are not in the clause. -/
def overwriteRow (now : ℝ) (v : VesselIn) (r : VesselRow) : VesselRow :=
  { r with lat := v.lat, lon := v.lon, speed := v.speed,
           course := v.course, last_seen := now }

/-- Effect of one row of the upsert statement of `repository.py`
lines 68-77: on a fresh `mmsi` the full row is inserted with
`last_seen = NOW()`; on a conflicting `mmsi` the `DO UPDATE SET` clause
runs (`overwriteRow`). -/
def upsertOne (now : ℝ) (db : List (Int × VesselRow)) (v : VesselIn) :
    List (Int × VesselRow) :=
  if (db.lookup v.mmsi).isSome then
    db.map fun p =>
      if p.1 = v.mmsi then (p.1, overwriteRow now v p.2) else p
  else
    db ++ [(v.mmsi, { name := v.name, lat := v.lat, lon := v.lon,
                      speed := v.speed, course := v.course,
                      vtype := v.vessel_type, last_seen := now })]

/-- `AISRepository.update_vessels_batch` (`repository.py` lines 49-77):
early return on an empty batch, otherwise `executemany` applies the
upsert to each tuple in batch order. -/
def update_vessels_batch (now : ℝ) (db : List (Int × VesselRow))
    (batch : List VesselIn) : List (Int × VesselRow) :=
  if batch.isEmpty then db else batch.foldl (upsertOne now) db

lemma lookup_map_update (m : Int) (f : VesselRow → VesselRow)
    (db : List (Int × VesselRow)) :
    (db.map fun p => if p.1 = m then (p.1, f p.2) else p).lookup m =
      (db.lookup m).map f := by
  induction db with
  | nil => rfl
  | cons p t ih =>
      obtain ⟨k, x⟩ := p
      rw [List.map_cons]
      by_cases h : k = m
      · subst h
        rw [if_pos rfl]
        simp [List.lookup_cons]
      · rw [if_neg h]
        simp [List.lookup_cons, beq_false_of_ne (Ne.symm h), ih]

lemma lookup_append_right (m : Int) (db l2 : List (Int × VesselRow))
    (h : db.lookup m = none) :
    (db ++ l2).lookup m = l2.lookup m := by
  induction db with
  | nil => rfl
  | cons p t ih =>
      obtain ⟨k, x⟩ := p
      by_cases hp : k = m
      · subst hp
        simp [List.lookup_cons] at h
      · rw [List.cons_append]
        simp only [List.lookup_cons, beq_false_of_ne (Ne.symm hp)] at h ⊢
        exact ih h

/-- Concrete stored row used in the C2 counterexample. -/
def rowOld : VesselRow :=
  { name := "OLD", lat := 1, lon := 2, speed := 3, course := 4,
    vtype := "TYPE_OLD", last_seen := 0 }

/-- Concrete incoming report that conflicts with `rowOld` on mmsi 1. -/
def vNew : VesselIn :=
  { mmsi := 1, name := "NEW", lat := 5, lon := 6, speed := 7, course := 8,
    vessel_type := "TYPE_NEW" }

/-- C2 counterexample: the claim says every conflicting field, including
the name, is overwritten, but upserting a report named "NEW" over a
stored row named "OLD" with the same mmsi leaves the stored name "OLD"
(`repository.py` lines 72-76 update only position, speed, course and
last_seen). -/
theorem c2_counterexample :
    ((update_vessels_batch 99 [(1, rowOld)] [vNew]).lookup 1).map
        VesselRow.name = some "OLD" ∧
      ((update_vessels_batch 99 [(1, rowOld)] [vNew]).lookup 1).map
        VesselRow.name ≠ some vNew.name := by
  constructor
  · simp [update_vessels_batch, upsertOne, overwriteRow, rowOld, vNew,
      List.lookup]
  · simp [update_vessels_batch, upsertOne, overwriteRow, rowOld, vNew,
      List.lookup]

/-- C2 (amended): the batch upsert is keyed by mmsi; for an
already-existing vessel row, position, speed and course take the new
values and last_seen is refreshed, while name and vessel type keep their
stored values; a fresh mmsi is inserted with all fields of the report and
last_seen set. -/
theorem c2_upsert_semantics (now : ℝ) (db : List (Int × VesselRow))
    (v : VesselIn) :
    (∀ r : VesselRow, db.lookup v.mmsi = some r →
        (update_vessels_batch now db [v]).lookup v.mmsi =
          some { r with lat := v.lat, lon := v.lon, speed := v.speed,
                        course := v.course, last_seen := now }) ∧
    (db.lookup v.mmsi = none →
        (update_vessels_batch now db [v]).lookup v.mmsi =
          some { name := v.name, lat := v.lat, lon := v.lon,
                 speed := v.speed, course := v.course,
                 vtype := v.vessel_type, last_seen := now }) := by
  constructor
  · intro r h
    unfold update_vessels_batch
    simp only [List.isEmpty_cons, List.foldl]
    rw [if_neg (by simp)]
    unfold upsertOne
    rw [if_pos (by rw [h]; rfl), lookup_map_update, h]
    rfl
  · intro h
    unfold update_vessels_batch
    simp only [List.isEmpty_cons, List.foldl]
    rw [if_neg (by simp)]
    unfold upsertOne
    rw [if_neg (by rw [h]; simp), lookup_append_right _ _ _ h]
    simp [List.lookup]

/-- Witness for C2 (amended): a conflicting upsert at mmsi 1 and a fresh
insert into an empty table, both at concrete values. -/
theorem c2_witness :
    ([(1, rowOld)].lookup vNew.mmsi = some rowOld ∧
      (update_vessels_batch 99 [(1, rowOld)] [vNew]).lookup vNew.mmsi =
        some { rowOld with lat := vNew.lat, lon := vNew.lon,
                           speed := vNew.speed, course := vNew.course,
                           last_seen := 99 }) ∧
    (([] : List (Int × VesselRow)).lookup vNew.mmsi = none ∧
      (update_vessels_batch 99 [] [vNew]).lookup vNew.mmsi =
        some { name := vNew.name, lat := vNew.lat, lon := vNew.lon,
               speed := vNew.speed, course := vNew.course,
               vtype := vNew.vessel_type, last_seen := 99 }) :=
  ⟨⟨rfl, (c2_upsert_semantics 99 [(1, rowOld)] vNew).1 rowOld rfl⟩,
   ⟨rfl, (c2_upsert_semantics 99 [] vNew).2 rfl⟩⟩

/-- `ConnectionManager.broadcast` (`broadcaster.py` lines 45-83).
Connections are values of a type `α`; `fails c` says whether
`send_text` raises on connection `c`; `serialize` models `json.dumps`,
applied once.  Each connection gets its own `_send_safe` task: a failing
send is caught there (so nothing ever propagates to the caller of
`broadcast`) and triggers `disconnect`, an erase from the active list.
The result is the final active list together with the list of
(connection, payload) deliveries that succeeded. -/
def broadcast {α : Type} [DecidableEq α] {μ : Type} (serialize : μ → String)
    (fails : α → Bool) (msg : μ) (conns : List α) :
    List α × List (α × String) :=
  if conns.isEmpty then (conns, [])
  else
    (conns.foldl (fun acc c => if fails c then acc.erase c else acc) conns,
     conns.filterMap fun c => if fails c then none else some (c, serialize msg))

lemma foldl_erase_of_no_failure {α : Type} [DecidableEq α]
    (fails : α → Bool) (l : List α) :
    ∀ acc : List α, (∀ d ∈ l, fails d = false) →
      l.foldl (fun acc c => if fails c then acc.erase c else acc) acc = acc := by
  induction l with
  | nil => intro acc _; rfl
  | cons a t ih =>
      intro acc h
      have ha : fails a = false := h a (List.mem_cons_self a t)
      rw [List.foldl_cons, if_neg (by simp [ha])]
      exact ih acc fun d hd => h d (List.mem_cons_of_mem a hd)

lemma foldl_erase_single {α : Type} [DecidableEq α]
    (fails : α → Bool) (c : α) (l : List α) :
    ∀ acc : List α, l.Nodup → (∀ d ∈ l, fails d = true ↔ d = c) →
      l.foldl (fun acc c => if fails c then acc.erase c else acc) acc =
        if c ∈ l then acc.erase c else acc := by
  induction l with
  | nil =>
      intro acc _ _
      rw [if_neg (List.not_mem_nil c)]
      rfl
  | cons a t ih =>
      intro acc hnd hf
      by_cases ha : a = c
      · subst ha
        have hfa : fails a = true := (hf a (List.mem_cons_self a t)).mpr rfl
        have hnotin : a ∉ t := (List.nodup_cons.mp hnd).1
        rw [List.foldl_cons, if_pos (by simp [hfa]),
          foldl_erase_of_no_failure fails t _ ?_, if_pos (List.mem_cons_self a t)]
        intro d hd
        by_contra hcon
        have : d = a := (hf d (List.mem_cons_of_mem a hd)).mp
          (Bool.of_not_eq_false hcon)
        exact hnotin (this ▸ hd)
      · have hfa : fails a = false := by
          by_contra hcon
          exact ha ((hf a (List.mem_cons_self a t)).mp (Bool.of_not_eq_false hcon))
        rw [List.foldl_cons, if_neg (by simp [hfa]),
          ih acc (List.nodup_cons.mp hnd).2
            (fun d hd => hf d (List.mem_cons_of_mem a hd))]
        have hmem : c ∈ a :: t ↔ c ∈ t := by
          constructor
          · intro h
            rcases List.mem_cons.mp h with h | h
            · exact absurd h.symm ha
            · exact h
          · exact List.mem_cons_of_mem a
        by_cases hct : c ∈ t
        · rw [if_pos hct, if_pos (hmem.mpr hct)]
        · rw [if_neg hct, if_neg (fun h => hct (hmem.mp h))]

lemma filterMap_delivery {α : Type} [DecidableEq α]
    (fails : α → Bool) (c : α) (data : String) (l : List α)
    (hf : ∀ d ∈ l, fails d = true ↔ d = c) :
    (l.filterMap fun d => if fails d then none else some (d, data)) =
      (l.filter fun d => decide (d ≠ c)).map fun d => (d, data) := by
  induction l with
  | nil => rfl
  | cons a t ih =>
      have ht := ih fun d hd => hf d (List.mem_cons_of_mem a hd)
      by_cases ha : a = c
      · subst ha
        have hfa : fails a = true := (hf a (List.mem_cons_self a t)).mpr rfl
        simp [hfa, ht]
      · have hfa : fails a = false := by
          by_contra hcon
          exact ha ((hf a (List.mem_cons_self a t)).mp (Bool.of_not_eq_false hcon))
        simp [hfa, ha, ht]

/-- C7: when exactly one connection of a duplicate-free active list fails
to send, `broadcast` removes exactly that connection and delivers the
serialized payload to every other connection; the model is a total
function because `_send_safe` catches every send exception, so nothing
is raised to the caller (`broadcaster.py` lines 45-83). -/
theorem c7_broadcast_isolates_failure {α : Type} [DecidableEq α] {μ : Type}
    (serialize : μ → String) (fails : α → Bool) (msg : μ)
    (conns : List α) (c : α)
    (hnd : conns.Nodup) (hc : c ∈ conns)
    (hf : ∀ d ∈ conns, fails d = true ↔ d = c) :
    broadcast serialize fails msg conns =
      (conns.erase c,
       (conns.filter fun d => decide (d ≠ c)).map fun d => (d, serialize msg)) := by
  unfold broadcast
  rw [if_neg (by intro h; rw [List.isEmpty_iff] at h; subst h; cases hc)]
  rw [foldl_erase_single fails c conns conns hnd hf, if_pos hc,
    filterMap_delivery fails c _ conns hf]

/-- Witness for C7: three distinct connections, the middle one failing;
it alone is removed and the other two receive the payload. -/
theorem c7_witness :
    ([1, 2, 3] : List ℕ).Nodup ∧ 2 ∈ ([1, 2, 3] : List ℕ) ∧
      broadcast (fun _ : ℕ => "payload") (fun d => d == 2) 0 [1, 2, 3] =
        ([1, 3], [(1, "payload"), (3, "payload")]) := by
  refine ⟨by decide, by decide, ?_⟩
  rw [c7_broadcast_isolates_failure (fun _ : ℕ => "payload")
    (fun d => d == 2) 0 [1, 2, 3] 2 (by decide) (by decide) (by decide)]
  rfl

/-- A geofence zone as returned by `check_point_in_geofence`
(`repository.py` lines 93-97: `SELECT name, severity`). -/
structure Zone where
  name : String
  severity : String

/-- Observable steps of `process_and_flush` (`ais_client.py`
lines 69-93): a geofence check for a report, an ALERT broadcast, the
single VESSEL_UPDATE broadcast of the whole batch, and the single
batch-upsert persistence call. -/
inductive Event where
  | check (lat lon : Option ℝ)
  | alert (zone : Zone) (vessel : String)
  | vesselUpdate (batch : List VesselData)
  | persist (batch : List VesselData)

/-- The events produced for one report of the batch (`ais_client.py`
lines 77-86): the geofence check, followed by an ALERT broadcast exactly
when the external containment query reports a zone.  `geo` abstracts
`detector.check_geofence_violation` (including its fail-open `None`). -/
def checkEvents (geo : Option ℝ → Option ℝ → Option Zone)
    (v : VesselData) : List Event :=
  Event.check v.lat v.lon ::
    (match geo v.lat v.lon with
     | some z => [Event.alert z v.name]
     | none => [])

/-- The full event trace of `process_and_flush` (`ais_client.py`
lines 69-93): per-report checks and alerts in batch order, then the
single VESSEL_UPDATE broadcast, then the single persistence call. -/
def process_and_flush (geo : Option ℝ → Option ℝ → Option Zone)
    (batch : List VesselData) : List Event :=
  batch.flatMap (checkEvents geo) ++
    [Event.vesselUpdate batch, Event.persist batch]

/-- Projection extracting ALERT events. -/
def alertOf : Event → Option (Zone × String)
  | Event.alert z s => some (z, s)
  | _ => none

/-- Projection extracting geofence-check events. -/
def checkOf : Event → Option (Option ℝ × Option ℝ)
  | Event.check a b => some (a, b)
  | _ => none

lemma flatMap_checkEvents_checks (geo : Option ℝ → Option ℝ → Option Zone)
    (batch : List VesselData) :
    (batch.flatMap (checkEvents geo)).filterMap checkOf =
      batch.map fun v => (v.lat, v.lon) := by
  induction batch with
  | nil => rfl
  | cons v t ih =>
      rw [List.flatMap_cons, List.filterMap_append, ih, List.map_cons]
      cases hg : geo v.lat v.lon <;>
        simp [checkEvents, hg, checkOf]

lemma flatMap_checkEvents_alerts (geo : Option ℝ → Option ℝ → Option Zone)
    (batch : List VesselData) :
    (batch.flatMap (checkEvents geo)).filterMap alertOf =
      batch.filterMap fun v => (geo v.lat v.lon).map fun z => (z, v.name) := by
  induction batch with
  | nil => rfl
  | cons v t ih =>
      rw [List.flatMap_cons, List.filterMap_append, ih, List.filterMap_cons]
      cases hg : geo v.lat v.lon <;>
        simp [checkEvents, hg, alertOf]

/-- C9: the trace of one flushed batch splits as a prefix of geofence
checks and ALERT broadcasts followed by exactly the VESSEL_UPDATE
broadcast of the whole batch and then the batch-upsert persistence call;
the checks appear sequentially in batch order, and the ALERT broadcasts
are exactly those of the violating reports, in batch order. -/
theorem c9_batch_ordering (geo : Option ℝ → Option ℝ → Option Zone)
    (batch : List VesselData) :
    ∃ pre : List Event,
      process_and_flush geo batch =
        pre ++ [Event.vesselUpdate batch, Event.persist batch] ∧
      (∀ e ∈ pre, (∃ a b, e = Event.check a b) ∨ ∃ z s, e = Event.alert z s) ∧
      pre.filterMap checkOf = (batch.map fun v => (v.lat, v.lon)) ∧
      pre.filterMap alertOf =
        batch.filterMap fun v => (geo v.lat v.lon).map fun z => (z, v.name) := by
  refine ⟨batch.flatMap (checkEvents geo), rfl, ?_,
    flatMap_checkEvents_checks geo batch,
    flatMap_checkEvents_alerts geo batch⟩
  intro e he
  rw [List.mem_flatMap] at he
  obtain ⟨v, _, hv⟩ := he
  unfold checkEvents at hv
  rcases List.mem_cons.mp hv with h | h
  · exact Or.inl ⟨v.lat, v.lon, h⟩
  · cases hg : geo v.lat v.lon with
    | none => rw [hg] at h; cases h
    | some z =>
        rw [hg] at h
        rcases List.mem_singleton.mp h with h
        exact Or.inr ⟨z, v.name, h⟩

/-- An inactive-vessel record as returned by `get_inactive_vessels`
(`repository.py` lines 112-127); `course` is optional because the
aggregator reads it with `v.get(course, 0)` (`anomalies.py` line 100),
which defaults when the key is absent. -/
structure InactiveVessel where
  mmsi : Int
  name : String
  lat : ℝ
  lon : ℝ
  speed : ℝ
  course : Option ℝ
  last_seen : ℝ

/-- A per-vessel alert of the anomaly report (`anomalies.py`
lines 102-109). -/
structure Alert where
  mmsi : Int
  name : String
  speed : ℝ
  last_seen : ℝ
  last_pos : ℝ × ℝ
  predicted_pos : ℝ × ℝ

/-- A jamming cluster of the anomaly report (`anomalies.py`
lines 124-128). -/
structure Cluster where
  center : ℝ × ℝ
  affected_mmsi : List Int
  ctype : String

/-- The alert built for one inactive vessel (`anomalies.py`
lines 99-109): the predicted position comes from
`calculate_predicted_pos` with the course defaulted to 0 when the record
has none. -/
noncomputable def mkAlert (now : ℝ) (v : InactiveVessel) : Alert :=
  { mmsi := v.mmsi
    name := v.name
    speed := v.speed
    last_seen := v.last_seen
    last_pos := (v.lat, v.lon)
    predicted_pos :=
      calculate_predicted_pos v.lat v.lon v.speed (v.course.getD 0)
        v.last_seen now }

/-- Euclidean distance in degree-space (`anomalies.py` lines 118-119). -/
noncomputable def euclid (p q : ℝ × ℝ) : ℝ :=
  Real.sqrt ((p.1 - q.1) ^ 2 + (p.2 - q.2) ^ 2)

/-- The `nearby` list collected for alert `i` (`anomalies.py`
lines 114-121): the mmsi of every other alert whose last-known position
is within Euclidean distance 0.1 of the last-known position of `a1`, in
alert order. -/
noncomputable def codeNearby (alerts : List Alert) (i : ℕ) (a1 : Alert) :
    List Int :=
  alerts.enum.filterMap fun ja2 =>
    if ja2.1 ≠ i ∧ euclid a1.last_pos ja2.2.last_pos < 0.1 then
      some ja2.2.mmsi
    else none

/-- The cluster loop of `get_enhanced_anomalies` (`anomalies.py`
lines 112-128): one cluster per alert with at least two nearby alerts,
centred at its last-known position, listing itself then its neighbours,
tagged POTENTIAL_JAMMING_ZONE; no deduplication across centres. -/
noncomputable def codeClusters (alerts : List Alert) : List Cluster :=
  alerts.enum.filterMap fun ia1 =>
    if 2 ≤ (codeNearby alerts ia1.1 ia1.2).length then
      some { center := ia1.2.last_pos
             affected_mmsi := ia1.2.mmsi :: codeNearby alerts ia1.1 ia1.2
             ctype := "POTENTIAL_JAMMING_ZONE" }
    else none

/-- `AnomalyDetector.get_enhanced_anomalies` (`anomalies.py`
lines 79-131) with the external store abstracted: `vessels` is the
result of `get_inactive_vessels` and `now` the current time.  Empty
input returns the empty report; otherwise the alerts are mapped and the
cluster scan runs on them. -/
noncomputable def get_enhanced_anomalies (now : ℝ)
    (vessels : List InactiveVessel) : List Alert × List Cluster :=
  if vessels.isEmpty then ([], [])
  else
    (vessels.map (mkAlert now), codeClusters (vessels.map (mkAlert now)))

/-- Modelled from the words of the claim: the neighbours of alert `i`
are the other alerts whose last-known position lies within Euclidean
distance 0.1 of the last-known position of alert `i`. -/
noncomputable def specNeighbors (alerts : List Alert)
    (i : Fin alerts.length) : List Int :=
  ((List.finRange alerts.length).filter fun j =>
      decide (j ≠ i ∧
        euclid (alerts.get i).last_pos (alerts.get j).last_pos < 0.1)).map
    fun j => (alerts.get j).mmsi

/-- Modelled from the words of the claim: alert `i` yields one cluster
exactly when it has at least two neighbours; the cluster is centred at
the last-known position of `i`, lists the identifier of `i` followed by
the identifiers of its neighbours, and is tagged POTENTIAL_JAMMING_ZONE;
a vessel may appear in clusters of several centres. -/
noncomputable def specClusters (alerts : List Alert) : List Cluster :=
  (List.finRange alerts.length).filterMap fun i =>
    if 2 ≤ (specNeighbors alerts i).length then
      some { center := (alerts.get i).last_pos
             affected_mmsi := (alerts.get i).mmsi :: specNeighbors alerts i
             ctype := "POTENTIAL_JAMMING_ZONE" }
    else none

lemma enum_eq_finRange_map {α : Type} (l : List α) :
    l.enum = (List.finRange l.length).map fun i => (i.1, l.get i) := by
  apply List.ext_getElem
  · simp
  · intro n h1 h2
    simp [List.getElem_enum, List.getElem_finRange]

lemma filterMap_ite_eq_filter_map {α β : Type} (p : α → Prop)
    [DecidablePred p] (h : α → β) (l : List α) :
    (l.filterMap fun x => if p x then some (h x) else none) =
      (l.filter fun x => decide (p x)).map h := by
  induction l with
  | nil => rfl
  | cons a t ih =>
      by_cases hp : p a
      · simp [hp, ih]
      · simp [hp, ih]

lemma codeNearby_eq_spec (alerts : List Alert) (i : Fin alerts.length) :
    codeNearby alerts i.1 (alerts.get i) = specNeighbors alerts i := by
  unfold codeNearby specNeighbors
  rw [enum_eq_finRange_map, List.filterMap_map]
  rw [List.filterMap_congr (g := fun j : Fin alerts.length =>
    if j ≠ i ∧ euclid (alerts.get i).last_pos (alerts.get j).last_pos < 0.1
    then some (alerts.get j).mmsi else none) ?_]
  · exact filterMap_ite_eq_filter_map _ _ _
  · intro j _
    simp only [Function.comp_apply]
    refine if_congr (and_congr ?_ Iff.rfl) rfl rfl
    exact not_congr ⟨Fin.val_injective.eq_iff.mp, fun h => h ▸ rfl⟩

lemma codeClusters_eq_spec (alerts : List Alert) :
    codeClusters alerts = specClusters alerts := by
  unfold codeClusters specClusters
  rw [enum_eq_finRange_map, List.filterMap_map]
  apply List.filterMap_congr
  intro j _
  simp only [Function.comp_apply]
  rw [codeNearby_eq_spec alerts j]

/-- C3: the clusters returned by `get_enhanced_anomalies` are exactly
those described by the claim: one cluster per alert vessel having at
least two other alert vessels within Euclidean distance 0.1 of its
last-known position (distances on last-known, not predicted, positions),
centred at that last-known position, listing its identifier followed by
the identifiers of the neighbours, tagged POTENTIAL_JAMMING_ZONE, with
no deduplication across centres. -/
theorem c3_cluster_characterization (now : ℝ)
    (vessels : List InactiveVessel) :
    (get_enhanced_anomalies now vessels).2 =
      specClusters (get_enhanced_anomalies now vessels).1 := by
  unfold get_enhanced_anomalies
  by_cases h : vessels.isEmpty
  · rw [if_pos h]
    rfl
  · rw [if_neg h]
    exact codeClusters_eq_spec _

/-- An inactive record with no course key, used in the C10 witness. -/
def northVessel : InactiveVessel :=
  { mmsi := 7, name := "N", lat := 60, lon := 10, speed := 20,
    course := none, last_seen := 0 }

/-- C10: an inactive record lacking a course is predicted with course
defaulted to 0 (`anomalies.py` line 100), so for speed at least 0.5 its
alert in `get_enhanced_anomalies` carries the due-north dead-reckoning
estimate: latitude advanced by `speed * elapsed_hours / 60` (rounded),
longitude unchanged up to rounding. -/
theorem c10_missing_course_goes_north (now : ℝ)
    (vessels : List InactiveVessel) (v : InactiveVessel)
    (hv : v ∈ vessels) (hcourse : v.course = none) (hs : 0.5 ≤ v.speed) :
    mkAlert now v ∈ (get_enhanced_anomalies now vessels).1 ∧
      (mkAlert now v).predicted_pos =
        (round6 (v.lat + v.speed * ((now - v.last_seen) / 3600) / 60),
         round6 v.lon) := by
  constructor
  · unfold get_enhanced_anomalies
    rw [if_neg (by intro h; rw [List.isEmpty_iff] at h; subst h; cases hv)]
    exact List.mem_map_of_mem _ hv
  · show calculate_predicted_pos v.lat v.lon v.speed (v.course.getD 0)
      v.last_seen now = _
    rw [hcourse]
    show calculate_predicted_pos v.lat v.lon v.speed 0 v.last_seen now = _
    unfold calculate_predicted_pos radians
    rw [if_neg (not_lt.mpr hs)]
    have e0 : (0 : ℝ) * Real.pi / 180 = 0 := by ring
    rw [e0, Real.cos_zero, Real.sin_zero]
    simp only [mul_one, mul_zero, zero_div, add_zero]

/-- Witness for C10: a course-less vessel at 20 knots seen an hour ago at
(60, 10) is predicted at (60.333333, 10) — moved due north, not held. -/
theorem c10_witness :
    northVessel ∈ [northVessel] ∧ northVessel.course = none ∧
      (0.5 : ℝ) ≤ northVessel.speed ∧
      mkAlert 3600 northVessel ∈
        (get_enhanced_anomalies 3600 [northVessel]).1 ∧
      (mkAlert 3600 northVessel).predicted_pos = (60.333333, 10) ∧
      (60.333333, (10 : ℝ)) ≠ (northVessel.lat, northVessel.lon) := by
  have h := c10_missing_course_goes_north 3600 [northVessel] northVessel
    (List.mem_singleton_self _) rfl (by norm_num [northVessel])
  refine ⟨List.mem_singleton_self _, rfl, by norm_num [northVessel], h.1,
    ?_, ?_⟩
  · rw [h.2]
    show (round6 ((60 : ℝ) + 20 * ((3600 - 0) / 3600) / 60), round6 10) = _
    have e1 : (60 : ℝ) + 20 * ((3600 - 0) / 3600) / 60 = 181 / 3 := by
      norm_num
    rw [e1, round6_eq ((181 : ℝ) / 3) 60333333 (by norm_num) (by norm_num),
      round6_eq (10 : ℝ) 10000000 (by norm_num) (by norm_num)]
    norm_num
  · show (60.333333, (10 : ℝ)) ≠ ((60 : ℝ), (10 : ℝ))
    intro hcon
    have : (60.333333 : ℝ) = 60 := congrArg Prod.fst hcon
    norm_num at this

end Maritime
